import Mathlib

/-!
Shallow embedding of `src/speech_analyzer/analyzer.py` from the
B2B-voice-analyse repository.

Waveform samples, sample rates and all scores are modelled as exact
rationals.  The DSP primitives from librosa and scipy (`piptrack`,
`onset_strength`, `onset_detect`, `frames_to_time`, `rms`,
`times_like`, `spectral_centroid`, `resample`) are external
collaborators of the analyzer, not code of this repository; they are
modelled as parameters collected in a `Primitives` bundle, so every
theorem quantifies over their outputs.  `np.std` takes a real square
root; it is modelled by `npStd` via `ratSqrt`, which is exact whenever
the variance is the square of a rational — the case at every concrete
input evaluated in this file.
-/

/-- Arithmetic mean, `np.mean`.  The empty mean is `0` in the embedding;
the analyzer only takes means of lists it has checked to be non-empty. -/
def npMean (xs : List ℚ) : ℚ := xs.sum / xs.length

/-- Population variance, the square of `np.std` (numpy default `ddof = 0`). -/
def npVariance (xs : List ℚ) : ℚ :=
  npMean (xs.map fun x => (x - npMean xs) * (x - npMean xs))

/-- Rational square root, exact on squares of non-negative rationals
(the only points at which `npStd` is evaluated below). -/
def ratSqrt (q : ℚ) : ℚ :=
  (Nat.sqrt q.num.toNat : ℚ) / (Nat.sqrt q.den : ℚ)

/-- `np.std` (population standard deviation). -/
def npStd (xs : List ℚ) : ℚ := ratSqrt (npVariance xs)

/-- `np.linspace start stop num` followed by `.tolist()` (line 12). -/
def npLinspace (start stop : ℚ) (num : ℕ) : List ℚ :=
  if num = 1 then [start]
  else (List.range num).map fun i : ℕ => start + (stop - start) * (i : ℚ) / ((num : ℚ) - 1)

/-- `np.argmax`: index of the first maximal entry (`0` on the empty list). -/
def npArgmax (xs : List ℚ) : ℕ :=
  match xs with
  | [] => 0
  | x :: rest =>
      (rest.enum.foldl (fun b p => if b.2 < p.2 then (p.1 + 1, p.2) else b) (0, x)).1

/-- Python `min` on two rationals (`b if b < a else a`). -/
def pymin (a b : ℚ) : ℚ := if b < a then b else a

/-- Python `max` on two rationals (`b if a < b else a`). -/
def pymax (a b : ℚ) : ℚ := if a < b then b else a

/-- `np.clip x lo hi`, elementwise clipping to `[lo, hi]`. -/
def npClip (x lo hi : ℚ) : ℚ := if x < lo then lo else if hi < x then hi else x

/-- `np.median`: middle element of the sorted list, or the mean of the
two middle elements at even length. -/
def npMedian (xs : List ℚ) : ℚ :=
  let s := xs.mergeSort (fun a b => decide (a ≤ b))
  let n := s.length
  if n % 2 = 1 then s.getD (n / 2) 0
  else (s.getD (n / 2 - 1) 0 + s.getD (n / 2) 0) / 2

/-- `np.percentile` with the default linear interpolation. -/
def npPercentile (xs : List ℚ) (q : ℚ) : ℚ :=
  let s := xs.mergeSort (fun a b => decide (a ≤ b))
  let n := s.length
  if n = 0 then 0
  else
    let pos := ((n : ℚ) - 1) * q / 100
    let i := (⌊pos⌋).toNat
    if i + 1 < n then s.getD i 0 + (pos - (i : ℚ)) * (s.getD (i + 1) 0 - s.getD i 0)
    else s.getD i 0

/-- Lines 20-22: per frame, the pitch at the bin whose magnitude is maximal.
A frame is the column of `(pitch, magnitude)` rows `piptrack` returns for
one time step.  (Real `piptrack` frames are never empty; an empty frame
yields pitch `0` here, which the 70-400 Hz filter discards.) -/
def framePitch (frame : List (ℚ × ℚ)) : ℚ :=
  (frame.getD (npArgmax (frame.map Prod.snd)) (0, 0)).1

/-- Lines 15-57, `analyze_tonality`.  `frames` is the `piptrack` output for
the whole waveform and `resample` is `scipy.signal.resample`. -/
def analyze_tonality (frames : List (List (ℚ × ℚ))) (num_parts : ℕ)
    (resample : List ℚ → ℕ → List ℚ) : List ℚ :=
  let absolute_pitches :=
    (frames.map framePitch).filter fun p => decide (70 < p ∧ p < 400)
  if absolute_pitches = [] then List.replicate num_parts 0
  else
    let base_hz := npMean absolute_pitches
    let dev_pct := absolute_pitches.map fun p => |(p - base_hz) / base_hz| * 100
    let vocal_energy := npStd dev_pct
    let zone_data := dev_pct.map fun d => d * (9 / (vocal_energy + 1 / 1000000)) + 10
    let final_data := zone_data.map fun z => npClip z 0 100
    resample final_data num_parts

/-- The external DSP primitives consumed by the analyzer (librosa / scipy). -/
structure Primitives where
  piptrack : List ℚ → ℚ → List (List (ℚ × ℚ))
  onset_strength : List ℚ → ℚ → List ℚ
  onset_detect : List ℚ → ℚ → List ℕ
  frame_time : ℕ → ℚ → ℚ
  rms : List ℚ → List ℚ
  times_like : List ℚ → List ℚ
  spectral_centroid : List ℚ → ℚ → List ℚ
  resample : List ℚ → ℕ → List ℚ

/-- Lines 64-76: body of the `analyze_pace` loop for one segment. -/
def pace_segment (segment_y : List ℚ) (sr : ℚ) (P : Primitives) : ℚ :=
  if segment_y.length = 0 then 0
  else
    let onset_env := P.onset_strength segment_y sr
    let onset_frames := P.onset_detect onset_env sr
    let onset_times := onset_frames.map fun f => P.frame_time f sr
    let duration_minutes := (segment_y.length : ℚ) / sr / 60
    if duration_minutes ≠ 0 then (onset_times.length : ℚ) / duration_minutes else 0

/-- Lines 60-78, `analyze_pace`. -/
def analyze_pace (y : List ℚ) (sr : ℚ) (num_parts : ℕ) (P : Primitives) : List ℚ :=
  let segment_length := y.length / num_parts
  (List.range num_parts).map fun i =>
    pace_segment ((y.drop (i * segment_length)).take segment_length) sr P

/-- Line 97: the silent / non-silent classification of each RMS frame
(`rms < np.mean(rms) * 0.5`, strict). -/
def silentFlags (rms : List ℚ) : List Bool :=
  rms.map fun r => decide (r < npMean rms * (1 / 2))

/-- Line 104: time step between RMS frames, `0.01` when fewer than two exist. -/
def dtOf (times : List ℚ) : ℚ :=
  if 1 < times.length then times.getD 1 0 - times.getD 0 0 else 1 / 100

/-- Lines 100-112: the silent-run walk over the frame classification;
returns the recorded pause durations in order. -/
def pauseWalk : List Bool → ℚ → ℚ → List ℚ
  | [], _, current_pause => if 0 < current_pause then [current_pause] else []
  | true :: rest, dt, current_pause => pauseWalk rest dt (current_pause + dt)
  | false :: rest, dt, current_pause =>
      if 0 < current_pause then current_pause :: pauseWalk rest dt 0
      else pauseWalk rest dt current_pause

/-- Lines 91-114: pause score of one segment, from its RMS envelope and the
`times_like` frame times. -/
def pause_score (rms times : List ℚ) : ℚ :=
  if rms.length = 0 then 0
  else
    let pause_durations := pauseWalk (silentFlags rms) (dtOf times) 0
    if pause_durations = [] then 0 else npMean pause_durations

/-- Lines 81-116, `analyze_pauses`. -/
def analyze_pauses (y : List ℚ) (num_parts : ℕ) (P : Primitives) : List ℚ :=
  let segment_length := y.length / num_parts
  (List.range num_parts).map fun i =>
    let segment_y := (y.drop (i * segment_length)).take segment_length
    if segment_y.length = 0 then 0
    else
      let rms := P.rms segment_y
      pause_score rms (P.times_like rms)

/-- Lines 119-136, `analyze_vocal_characters`: returns the pair
`(masculinity_percentage, femininity_percentage)`. -/
def analyze_vocal_characters (spectral_centroid : List ℚ) (num_parts : ℕ)
    (resample : List ℚ → ℕ → List ℚ) : ℚ × ℚ :=
  let spectral_centroid_resampled :=
    if spectral_centroid.length = 0 then List.replicate num_parts 0
    else resample spectral_centroid num_parts
  let mean_centroid := npMean spectral_centroid_resampled
  let min_centroid : ℚ := 1000
  let max_centroid : ℚ := 4000
  let masculinity_percentage :=
    pymax 0 (pymin 100 ((max_centroid - mean_centroid) / (max_centroid - min_centroid) * 100))
  (masculinity_percentage, 100 - masculinity_percentage)

/-- One of the three `{time, data, average}` records of the response. -/
structure TimeSeries where
  time : List ℚ
  data : List ℚ
  average : ℚ

/-- The `vocalCharacters` record of the response. -/
structure VoiceCharacter where
  masculinityPercentage : ℚ
  femininityPercentage : ℚ

/-- The full response dictionary (lines 145-165). -/
structure AnalysisResult where
  tonality : TimeSeries
  pace : TimeSeries
  pausing : TimeSeries
  vocalCharacters : VoiceCharacter

/-- Lines 6-167, `analyze_speech_return_dict`, applied to the decoded
waveform `y`, its sample rate `sr`, the segment count and the external
primitives. -/
def analyze_speech_return_dict (y : List ℚ) (sr : ℚ) (segments : ℕ)
    (P : Primitives) : AnalysisResult :=
  let audio_length := (y.length : ℚ) / sr
  let num_parts := segments
  let time_intervals := npLinspace 0 audio_length num_parts
  let tonality_var := analyze_tonality (P.piptrack y sr) num_parts P.resample
  let pace_var := analyze_pace y sr num_parts P
  let pauses_var := analyze_pauses y num_parts P
  let vc := analyze_vocal_characters (P.spectral_centroid y sr) num_parts P.resample
  { tonality := ⟨time_intervals, tonality_var, npMean tonality_var⟩
    pace := ⟨time_intervals, pace_var, npMean pace_var⟩
    pausing := ⟨time_intervals, pauses_var, npMean pauses_var⟩
    vocalCharacters := ⟨vc.1, vc.2⟩ }

/-- Segment-local tonality score as claim C2 (and spec section 4.2) words it:
fewer than five retained candidates, or a segment shorter than half a second,
give score `0`; otherwise log-frequencies, absolute deviations from their
median, `0.6 * std + 0.4 * (p90 - p10)`, scaled by `120` and clipped to
`[0, 100]`.  `log2` is a parameter (irrational on most rationals); the claim
is settled on the short-candidate branch, which never applies it. -/
def tonality_segment_claim (freqs : List ℚ) (duration : ℚ) (log2 : ℚ → ℚ) : ℚ :=
  if freqs.length < 5 ∨ duration < 1 / 2 then 0
  else
    let logs := freqs.map log2
    let baseline := npMedian logs
    let deviations := logs.map fun x => |x - baseline|
    let variability := npStd deviations
    let spread := npPercentile deviations 90 - npPercentile deviations 10
    npClip ((6 / 10 * variability + 4 / 10 * spread) * 120) 0 100

/-- Tonality formula the code actually implements, stated as in the amended
claim C2: one global pass over the clip — retain per-frame argmax-magnitude
pitches strictly inside (70, 400) Hz; if none remain, N zeros; otherwise
baseline = arithmetic mean, per-frame deviation `|p - baseline| / baseline *
100`, energy = std of the deviations, per-frame value
`clip(dev * 9 / (energy + 1e-6) + 10, 0, 100)`, finally resampled to N. -/
def tonality_global_spec (frames : List (List (ℚ × ℚ))) (num_parts : ℕ)
    (resample : List ℚ → ℕ → List ℚ) : List ℚ :=
  let retained := (frames.map framePitch).filter fun p => decide (70 < p ∧ p < 400)
  if retained = [] then List.replicate num_parts 0
  else
    let baseline := npMean retained
    let deviations := retained.map fun p => |p - baseline| / baseline * 100
    let energy := npStd deviations
    resample (deviations.map fun d => npClip (d * 9 / (energy + 1 / 1000000) + 10) 0 100)
      num_parts

/-- Lengths of the maximal runs of `true` in a Boolean list, in order,
carrying the length of the current run as an accumulator. -/
def runsAux : List Bool → ℕ → List ℕ
  | [], k => if 0 < k then [k] else []
  | true :: rest, k => runsAux rest (k + 1)
  | false :: rest, k => if 0 < k then k :: runsAux rest 0 else runsAux rest 0

/-- Lengths of the maximal runs of `true` (the silent runs), in order. -/
def silentRuns (bs : List Bool) : List ℕ := runsAux bs 0

/-- Pause score as claim C6 (and spec section 4.4) words it, run-wise:
threshold `0.5 * mean(rms)`, a frame silent iff strictly below it, each
maximal silent run contributes its length times `dt`, runs of positive
total duration are recorded in order, and the score is the mean of the
recorded durations (`0` when none, or when the segment is empty). -/
def pause_score_spec (rms times : List ℚ) : ℚ :=
  if rms = [] then 0
  else
    let dt := dtOf times
    let silent := rms.map fun r => decide (r < 1 / 2 * npMean rms)
    let recorded :=
      ((silentRuns silent).map fun k : ℕ => (k : ℚ) * dt).filter fun d => decide (0 < d)
    if recorded = [] then 0 else npMean recorded

/-- Concrete primitive bundle returning empty envelopes and a resampler that
returns the requested number of points. -/
def zeroPrims : Primitives where
  piptrack := fun _ _ => []
  onset_strength := fun _ _ => []
  onset_detect := fun _ _ => []
  frame_time := fun f _ => (f : ℚ)
  rms := fun _ => []
  times_like := fun xs => xs
  spectral_centroid := fun _ _ => []
  resample := fun _ n => List.replicate n 0

theorem npClip_bounds (z lo hi : ℚ) (h : lo ≤ hi) :
    lo ≤ npClip z lo hi ∧ npClip z lo hi ≤ hi := by
  unfold npClip
  split_ifs <;> constructor <;> linarith

theorem pymax_pymin_bounds (e : ℚ) :
    0 ≤ pymax 0 (pymin 100 e) ∧ pymax 0 (pymin 100 e) ≤ 100 := by
  unfold pymax pymin
  split_ifs <;> constructor <;> linarith

theorem analyze_vocal_characters_eq (cs : List ℚ) (N : ℕ)
    (resample : List ℚ → ℕ → List ℚ) :
    analyze_vocal_characters cs N resample =
      (pymax 0 (pymin 100 ((4000 -
          npMean (if cs.length = 0 then List.replicate N 0 else resample cs N)) /
            (4000 - 1000) * 100)),
        100 - pymax 0 (pymin 100 ((4000 -
          npMean (if cs.length = 0 then List.replicate N 0 else resample cs N)) /
            (4000 - 1000) * 100))) := rfl

theorem vocalCharacters_eq (y : List ℚ) (sr : ℚ) (segments : ℕ) (P : Primitives) :
    (analyze_speech_return_dict y sr segments P).vocalCharacters =
      ⟨(analyze_vocal_characters (P.spectral_centroid y sr) segments P.resample).1,
        (analyze_vocal_characters (P.spectral_centroid y sr) segments P.resample).2⟩ := rfl

/-- C4: for every input waveform, the masculinity and femininity percentages
of the result sum to exactly 100 and both lie in [0, 100]. -/
theorem C4_percentages_sum_and_bounds (y : List ℚ) (sr : ℚ) (segments : ℕ)
    (P : Primitives) :
    (analyze_speech_return_dict y sr segments P).vocalCharacters.masculinityPercentage +
        (analyze_speech_return_dict y sr segments P).vocalCharacters.femininityPercentage
        = 100 ∧
      0 ≤ (analyze_speech_return_dict y sr segments P).vocalCharacters.masculinityPercentage ∧
      (analyze_speech_return_dict y sr segments P).vocalCharacters.masculinityPercentage ≤ 100 ∧
      0 ≤ (analyze_speech_return_dict y sr segments P).vocalCharacters.femininityPercentage ∧
      (analyze_speech_return_dict y sr segments P).vocalCharacters.femininityPercentage ≤ 100 := by
  rw [vocalCharacters_eq, analyze_vocal_characters_eq]
  dsimp only
  obtain ⟨h0, h100⟩ := pymax_pymin_bounds ((4000 -
      npMean (if (P.spectral_centroid y sr).length = 0 then List.replicate segments 0
        else P.resample (P.spectral_centroid y sr) segments)) / (4000 - 1000) * 100)
  exact ⟨by ring, h0, h100, by linarith, by linarith⟩

/-- C10: when the spectral-centroid sequence is empty (e.g. a zero-length
waveform), the code substitutes N zero centroids, the mean centroid is 0 Hz,
and the result is masculinity 100, femininity 0 — not a neutral or error
value. -/
theorem C10_empty_centroid (N : ℕ) (resample : List ℚ → ℕ → List ℚ) (hN : 1 ≤ N) :
    analyze_vocal_characters [] N resample = (100, 0) := by
  rw [analyze_vocal_characters_eq]
  have hmean : npMean (List.replicate N (0 : ℚ)) = 0 := by
    simp [npMean, List.sum_replicate]
  norm_num [hmean, pymax, pymin]

theorem C10_empty_centroid_witness :
    analyze_vocal_characters [] 5 (fun xs _ => xs) = (100, 0) :=
  C10_empty_centroid 5 (fun xs _ => xs) (by norm_num)

/-- C1 counterexample: a clip whose mean spectral centroid is exactly 1000 Hz
(with the identity resample, as `scipy.signal.resample` is at unchanged
length) yields masculinity 100 and femininity 0, not masculinity 0 and
femininity 100 as the claim states. -/
theorem C1_counterexample :
    npMean [1000] = 1000 ∧
      analyze_vocal_characters [1000] 1 (fun xs _ => xs) = (100, 0) ∧
      analyze_vocal_characters [1000] 1 (fun xs _ => xs) ≠ (0, 100) := by
  have h : analyze_vocal_characters [1000] 1 (fun xs _ => xs) = (100, 0) := by
    norm_num [analyze_vocal_characters, npMean, pymax, pymin]
  refine ⟨by norm_num [npMean], h, ?_⟩
  rw [h]
  intro hc
  exact absurd (congrArg Prod.fst hc) (by norm_num)

/-- C1 amended: with a mean-preserving resample (as the FFT resample is),
a mean spectral centroid of exactly 1000 Hz yields masculinity 100 and
femininity 0, of exactly 4000 Hz yields masculinity 0 and femininity 100,
and of exactly 2500 Hz yields 50/50: 1000 Hz is the fully-masculine anchor
and 4000 Hz the fully-feminine anchor of the formula in the code. -/
theorem C1_amended_anchors (cs : List ℚ) (N : ℕ) (resample : List ℚ → ℕ → List ℚ)
    (hpres : npMean (resample cs N) = npMean cs) :
    (npMean cs = 1000 → analyze_vocal_characters cs N resample = (100, 0)) ∧
      (npMean cs = 4000 → analyze_vocal_characters cs N resample = (0, 100)) ∧
      (npMean cs = 2500 → analyze_vocal_characters cs N resample = (50, 50)) := by
  have hcs : ∀ v : ℚ, npMean cs = v → v ≠ 0 → ¬cs.length = 0 := by
    intro v hv hvne hlen
    rw [List.length_eq_zero] at hlen
    subst hlen
    simp [npMean] at hv
    exact hvne hv.symm
  refine ⟨fun hm => ?_, fun hm => ?_, fun hm => ?_⟩
  · rw [analyze_vocal_characters_eq, if_neg (hcs 1000 hm (by norm_num)), hpres, hm]
    norm_num [pymax, pymin]
  · rw [analyze_vocal_characters_eq, if_neg (hcs 4000 hm (by norm_num)), hpres, hm]
    norm_num [pymax, pymin]
  · rw [analyze_vocal_characters_eq, if_neg (hcs 2500 hm (by norm_num)), hpres, hm]
    norm_num [pymax, pymin]

theorem C1_amended_anchors_witness :
    analyze_vocal_characters [2500] 1 (fun xs _ => xs) = (50, 50) :=
  (C1_amended_anchors [2500] 1 (fun xs _ => xs) rfl).2.2 (by norm_num [npMean])

theorem list_sum_lt_length_mul (l : List ℚ) (c : ℚ) (hne : l ≠ [])
    (h : ∀ x ∈ l, x < c) : l.sum < l.length * c := by
  induction l with
  | nil => exact absurd rfl hne
  | cons x t ih =>
    rcases eq_or_ne t [] with ht | ht
    · subst ht
      simpa using h x (by simp)
    · have hx := h x (by simp)
      have hts := ih ht fun z hz => h z (by simp [hz])
      simp only [List.sum_cons, List.length_cons]
      push_cast
      linarith

/-- C9: a non-empty RMS envelope of non-negative values never has all of its
frames classified silent: some frame fails `rms < 0.5 * mean(rms)`. -/
theorem C9_not_all_silent (rms : List ℚ) (hne : rms ≠ [])
    (hnn : ∀ r ∈ rms, 0 ≤ r) : false ∈ silentFlags rms := by
  by_contra hall
  have hsil : ∀ r ∈ rms, r < npMean rms * (1 / 2) := by
    intro r hr
    by_contra hge
    apply hall
    simp only [silentFlags, List.mem_map]
    exact ⟨r, hr, by simpa using hge⟩
  have hlen0 : rms.length ≠ 0 := fun h => hne (List.length_eq_zero.mp h)
  have hlen : 0 < (rms.length : ℚ) := by exact_mod_cast Nat.pos_of_ne_zero hlen0
  have hsum0 : 0 ≤ rms.sum := List.sum_nonneg hnn
  have hlt := list_sum_lt_length_mul rms _ hne hsil
  rw [npMean] at hlt
  have hcalc : (rms.length : ℚ) * (rms.sum / rms.length * (1 / 2)) = rms.sum / 2 := by
    field_simp
    ring
  rw [hcalc] at hlt
  linarith

theorem C9_not_all_silent_witness : false ∈ silentFlags [1, 3] :=
  C9_not_all_silent [1, 3] (by simp)
    (by intro r hr; fin_cases hr <;> norm_num)

theorem analyze_tonality_pre_resample_bounds (frames : List (List (ℚ × ℚ))) (N : ℕ)
    (resample : List ℚ → ℕ → List ℚ) :
    analyze_tonality frames N resample = List.replicate N 0 ∨
      ∃ final_data : List ℚ, (∀ v ∈ final_data, 0 ≤ v ∧ v ≤ 100) ∧
        analyze_tonality frames N resample = resample final_data N := by
  by_cases h : ((frames.map framePitch).filter fun p => decide (70 < p ∧ p < 400)) = []
  · left
    rw [analyze_tonality, if_pos h]
  · right
    refine ⟨_, fun v hv => ?_, by rw [analyze_tonality, if_neg h]⟩
    rcases List.mem_map.mp hv with ⟨z, _, rfl⟩
    exact npClip_bounds z 0 100 (by norm_num)

theorem npLinspace_length (a b : ℚ) (n : ℕ) : (npLinspace a b n).length = n := by
  unfold npLinspace
  split_ifs with h
  · simp [h]
  · rw [List.length_map, List.length_range]

/-- C5: for every segment count N at least 1 and every waveform, the time and
data lists of the tonality, pace and pausing series all have length exactly
N, given that the external resampler returns the requested number of points. -/
theorem C5_series_lengths (y : List ℚ) (sr : ℚ) (N : ℕ) (P : Primitives)
    (hN : 1 ≤ N) (hlen : ∀ xs n, (P.resample xs n).length = n) :
    (analyze_speech_return_dict y sr N P).tonality.time.length = N ∧
      (analyze_speech_return_dict y sr N P).tonality.data.length = N ∧
      (analyze_speech_return_dict y sr N P).pace.time.length = N ∧
      (analyze_speech_return_dict y sr N P).pace.data.length = N ∧
      (analyze_speech_return_dict y sr N P).pausing.time.length = N ∧
      (analyze_speech_return_dict y sr N P).pausing.data.length = N := by
  refine ⟨npLinspace_length _ _ _, ?_, npLinspace_length _ _ _, ?_,
    npLinspace_length _ _ _, ?_⟩
  · show (analyze_tonality (P.piptrack y sr) N P.resample).length = N
    by_cases h :
        (((P.piptrack y sr).map framePitch).filter fun p => decide (70 < p ∧ p < 400)) = []
    · rw [analyze_tonality, if_pos h]
      simp
    · rw [analyze_tonality, if_neg h]
      exact hlen _ _
  · show (analyze_pace y sr N P).length = N
    simp [analyze_pace]
  · show (analyze_pauses y N P).length = N
    simp [analyze_pauses]

theorem C5_series_lengths_witness :
    (analyze_speech_return_dict [1, 2] 2 2 zeroPrims).tonality.time.length = 2 ∧
      (analyze_speech_return_dict [1, 2] 2 2 zeroPrims).tonality.data.length = 2 ∧
      (analyze_speech_return_dict [1, 2] 2 2 zeroPrims).pace.time.length = 2 ∧
      (analyze_speech_return_dict [1, 2] 2 2 zeroPrims).pace.data.length = 2 ∧
      (analyze_speech_return_dict [1, 2] 2 2 zeroPrims).pausing.time.length = 2 ∧
      (analyze_speech_return_dict [1, 2] 2 2 zeroPrims).pausing.data.length = 2 :=
  C5_series_lengths [1, 2] 2 2 zeroPrims (by norm_num)
    (fun xs n => by simp [zeroPrims])

/-- C8: a zero-length waveform with segment count 5 yields all-zero data
arrays for tonality, pace and pausing (with the pitch tracker reporting no
frames on empty input); no division by zero occurs since every analyzer is
total and substitutes 0 on empty segments. -/
theorem C8_zero_length_waveform (sr : ℚ) (P : Primitives)
    (hpip : P.piptrack [] sr = []) :
    (analyze_speech_return_dict [] sr 5 P).tonality.data = List.replicate 5 0 ∧
      (analyze_speech_return_dict [] sr 5 P).pace.data = List.replicate 5 0 ∧
      (analyze_speech_return_dict [] sr 5 P).pausing.data = List.replicate 5 0 := by
  refine ⟨?_, ?_, ?_⟩
  · show analyze_tonality (P.piptrack [] sr) 5 P.resample = List.replicate 5 0
    rw [hpip, analyze_tonality]
    simp
  · show analyze_pace [] sr 5 P = List.replicate 5 0
    simp [analyze_pace, pace_segment]
  · show analyze_pauses [] 5 P = List.replicate 5 0
    simp [analyze_pauses]

theorem C8_zero_length_waveform_witness :
    (analyze_speech_return_dict [] 22050 5 zeroPrims).tonality.data = List.replicate 5 0 ∧
      (analyze_speech_return_dict [] 22050 5 zeroPrims).pace.data = List.replicate 5 0 ∧
      (analyze_speech_return_dict [] 22050 5 zeroPrims).pausing.data = List.replicate 5 0 :=
  C8_zero_length_waveform 22050 zeroPrims rfl

theorem pauseWalk_eq_runsAux (dt : ℚ) (hdt : 0 ≤ dt) :
    ∀ (bs : List Bool) (k : ℕ),
      pauseWalk bs dt ((k : ℚ) * dt) =
        ((runsAux bs k).map fun n : ℕ => (n : ℚ) * dt).filter fun d => decide (0 < d) := by
  intro bs
  induction bs with
  | nil =>
    intro k
    simp only [pauseWalk, runsAux]
    by_cases hk : 0 < (k : ℚ) * dt
    · have hk0 : 0 < k := by
        rcases Nat.eq_zero_or_pos k with rfl | h
        · simp at hk
        · exact h
      rw [if_pos hk, if_pos hk0]
      simp [hk]
    · rw [if_neg hk]
      by_cases hk0 : 0 < k
      · rw [if_pos hk0]
        simp [hk]
      · rw [if_neg hk0]
        simp
  | cons b rest ih =>
    intro k
    cases b
    · simp only [pauseWalk, runsAux]
      by_cases hk : 0 < (k : ℚ) * dt
      · have hk0 : 0 < k := by
          rcases Nat.eq_zero_or_pos k with rfl | h
          · simp at hk
          · exact h
        rw [if_pos hk, if_pos hk0]
        have h0 := ih 0
        rw [Nat.cast_zero, zero_mul] at h0
        rw [h0]
        simp [hk]
      · have hzero : (k : ℚ) * dt = 0 :=
          le_antisymm (not_lt.mp hk) (mul_nonneg (Nat.cast_nonneg k) hdt)
        rw [if_neg hk, hzero]
        have h0 := ih 0
        rw [Nat.cast_zero, zero_mul] at h0
        rw [h0]
        by_cases hk0 : 0 < k
        · rw [if_pos hk0]
          simp [hzero]
        · rw [if_neg hk0]
    · simp only [pauseWalk, runsAux]
      have hc : (k : ℚ) * dt + dt = ((k + 1 : ℕ) : ℚ) * dt := by
        push_cast
        ring
      rw [hc]
      exact ih (k + 1)

/-- C6: the pause score of every segment is exactly the procedure the claim
describes — threshold 0.5 * mean(rms), a frame silent iff strictly below it,
consecutive silent frames accumulating dt (gap of the first two frame times,
0.01 s with fewer than two frames), every positive run recorded when closed
by a non-silent frame or by the segment end, and the score the mean of the
recorded durations, 0 when none or when the segment is empty.  The
hypothesis only asks that the frame times are non-decreasing at the front
(dt is never negative for real `times_like` output).  Segment-locality is
by construction: `pause_score` reads only the envelope of the segment itself. -/
theorem C6_pause_score_procedure (rms times : List ℚ) (hdt : 0 ≤ dtOf times) :
    pause_score rms times = pause_score_spec rms times := by
  rcases eq_or_ne rms [] with rfl | hne
  · simp [pause_score, pause_score_spec]
  · simp only [pause_score, pause_score_spec,
      if_neg (fun h => hne (List.length_eq_zero.mp h)), if_neg hne]
    have hflags : (rms.map fun r => decide (r < 1 / 2 * npMean rms)) = silentFlags rms := by
      simp only [silentFlags]
      congr 1
      funext r
      rw [mul_comm]
    have hwalk := pauseWalk_eq_runsAux (dtOf times) hdt (silentFlags rms) 0
    rw [Nat.cast_zero, zero_mul] at hwalk
    rw [hflags, silentRuns, ← hwalk]

theorem C6_pause_score_procedure_witness :
    pause_score [4, 1, 1, 4] [0, 1 / 10, 2 / 10, 3 / 10] =
        pause_score_spec [4, 1, 1, 4] [0, 1 / 10, 2 / 10, 3 / 10] ∧
      pause_score [4, 1, 1, 4] [0, 1 / 10, 2 / 10, 3 / 10] = 1 / 5 :=
  ⟨C6_pause_score_procedure [4, 1, 1, 4] [0, 1 / 10, 2 / 10, 3 / 10]
      (by norm_num [dtOf]),
    by norm_num [pause_score, silentFlags, dtOf, npMean, pauseWalk]⟩

/-- C7 counterexample: a non-empty segment of pure digital silence — four RMS
frames all 0, hence below any nonzero threshold — has pause score 0, not the
full duration of the segment, 4 * 0.01: the adaptive threshold 0.5 * mean(rms) is 0
and no frame is strictly below 0. -/
theorem C7_counterexample :
    pause_score [0, 0, 0, 0] [0, 1 / 100, 2 / 100, 3 / 100] = 0 ∧
      (0 : ℚ) ≠ 4 * (1 / 100) := by
  constructor
  · norm_num [pause_score, silentFlags, dtOf, npMean, pauseWalk]
  · norm_num

theorem pauseWalk_all_false (bs : List Bool) (dt : ℚ)
    (h : ∀ b ∈ bs, b = false) : pauseWalk bs dt 0 = [] := by
  induction bs with
  | nil => simp [pauseWalk]
  | cons b rest ih =>
    have hb : b = false := h b (by simp)
    subst hb
    simp only [pauseWalk, lt_irrefl, if_false]
    exact ih fun x hx => h x (by simp [hx])

/-- C7 amended: a non-empty all-zero-RMS segment (pure digital silence) has
pause score 0 — the adaptive threshold 0.5 * mean(rms) is 0 and the strict
comparison marks no frame silent, so no pause run is ever recorded — and a
segment on which the external onset detector reports no onsets has pace
score 0. -/
theorem C7_amended_pure_silence (rms times seg : List ℚ) (sr : ℚ) (P : Primitives)
    (hne : rms ≠ []) (h0 : ∀ r ∈ rms, r = 0)
    (hdet : P.onset_detect (P.onset_strength seg sr) sr = []) :
    pause_score rms times = 0 ∧ pace_segment seg sr P = 0 := by
  constructor
  · have hmean : npMean rms = 0 := by
      have hsum : rms.sum = 0 := List.sum_eq_zero h0
      simp [npMean, hsum]
    have hflags : ∀ b ∈ silentFlags rms, b = false := by
      intro b hb
      rcases List.mem_map.mp hb with ⟨r, hr, rfl⟩
      simp [h0 r hr, hmean]
    simp only [pause_score, if_neg (fun h => hne (List.length_eq_zero.mp h))]
    rw [pauseWalk_all_false _ _ hflags]
    simp
  · by_cases h1 : seg.length = 0
    · simp [pace_segment, h1]
    · simp [pace_segment, h1, hdet]

theorem C7_amended_pure_silence_witness :
    pause_score [0, 0] [0, 1 / 100] = 0 ∧ pace_segment [1] 1 zeroPrims = 0 :=
  C7_amended_pure_silence [0, 0] [0, 1 / 100] [1] 1 zeroPrims (by simp)
    (by intro r hr; fin_cases hr <;> rfl) rfl

/-- C2 counterexample: one piptrack frame with a single in-range candidate at
200 Hz, one segment of ample duration (4 s), identity resample (exact at
unchanged length): only one candidate — fewer than 5 — is retained, so the
claimed segment-local score is 0, but the code computes the data value 10
(zero deviation from the one-point baseline, scaled, plus the offset 10). -/
theorem C2_counterexample :
    analyze_tonality [[(200, 1)]] 1 (fun xs _ => xs) = [10] ∧
      tonality_segment_claim [200] 4 (fun x => x) = 0 ∧ (10 : ℚ) ≠ 0 := by
  refine ⟨?_, ?_, by norm_num⟩
  · norm_num [analyze_tonality, framePitch, npArgmax, npMean, npStd, npVariance,
      ratSqrt, npClip]
  · norm_num [tonality_segment_claim]

/-- C2 amended: the tonality score is computed in one global pass over the
whole clip, not per segment — retain the per-frame argmax-magnitude pitches
strictly inside (70, 400) Hz; with none retained the data is N zeros;
otherwise baseline = arithmetic mean of the retained pitches, per-frame
deviation |p - baseline| / baseline * 100, energy = standard deviation of
the deviations, per-frame value clip(deviation * 9 / (energy + 1e-6) + 10,
0, 100), and that per-frame series is resampled to N points, so every
output value depends on the pitch data of the whole clip. -/
theorem C2_amended_global_formula (frames : List (List (ℚ × ℚ))) (N : ℕ)
    (resample : List ℚ → ℕ → List ℚ) :
    analyze_tonality frames N resample = tonality_global_spec frames N resample := by
  simp only [analyze_tonality, tonality_global_spec]
  by_cases h : ((frames.map framePitch).filter fun p => decide (70 < p ∧ p < 400)) = []
  · rw [if_pos h, if_pos h]
  · rw [if_neg h, if_neg h]
    set L := (frames.map framePitch).filter fun p => decide (70 < p ∧ p < 400) with hL
    have hmem : ∀ p ∈ L, 70 < p ∧ p < 400 := by
      intro p hp
      have := List.of_mem_filter hp
      simpa using this
    have hbpos : 0 < npMean L := by
      have hsum : 0 < L.sum :=
        List.sum_pos L (fun p hp => lt_trans (by norm_num) (hmem p hp).1) h
      have hlen : 0 < (L.length : ℚ) := by
        have hll : L.length ≠ 0 := fun hc => h (List.length_eq_zero.mp hc)
        exact_mod_cast Nat.pos_of_ne_zero hll
      exact div_pos hsum hlen
    have hdev : (L.map fun p => |(p - npMean L) / npMean L| * 100)
        = L.map fun p => |p - npMean L| / npMean L * 100 := by
      refine List.map_congr_left fun p hp => ?_
      rw [abs_div, abs_of_pos hbpos]
    rw [hdev, List.map_map]
    congr 1
    refine List.map_congr_left fun d hd => ?_
    simp only [Function.comp]
    rw [mul_div_assoc]
